import Mathlib

/-!
Shallow embedding of `vocos/discriminators.py` (multi-period and
multi-resolution GAN discriminators with optional conditional embeddings).

Tensors are modelled as shape records with total data functions over ℚ;
every tensor produced by an operation is *guarded*: its data function is
zero outside the advertised shape, so that structure equality coincides
with numeric equality of the in-range entries.  Fallible framework
operations (reflect padding with too large an amount, broadcasting
mismatches, missing-attribute access, embedding index errors) are
modelled with `Option`: `none` is an uncaught framework error escaping
the forward call.  Learned parameters (convolution weights/biases and
embedding tables) are arbitrary rational-valued functions; the `init`
definitions build instances exactly as the Python constructors do
(including zero-initialising the embedding table).
-/

/-- A (batch, time) waveform batch, `x :: (B, T)` in the source. -/
structure Tensor2 where
  batch : Nat
  len : Nat
  data : Nat → Nat → ℚ

/-- A rank-4 tensor `(B, C, H, W)` with a total data function. -/
structure Tensor4 where
  batch : Nat
  ch : Nat
  height : Nat
  width : Nat
  data : Nat → Nat → Nat → Nat → ℚ

/-- Guard a rank-4 data function: zero outside the shape `(b, c, h, w)`. -/
def g4 (b c h w : Nat) (f : Nat → Nat → Nat → Nat → ℚ) : Nat → Nat → Nat → Nat → ℚ :=
  fun i j k l => if i < b ∧ j < c ∧ k < h ∧ l < w then f i j k l else 0

/-- Model of `torch.nn.Conv2d` after `weight_norm`: the effective (learned) weight and
bias together with the fixed hyperparameters.  `weight o j u v` is the kernel
entry for output channel `o`, input channel `j`, offset `(u, v)`. -/
structure Conv2d where
  inCh : Nat
  outCh : Nat
  kh : Nat
  kw : Nat
  sh : Nat
  sw : Nat
  ph : Nat
  pw : Nat
  weight : Nat → Nat → Nat → Nat → ℚ
  bias : Nat → ℚ

/-- The architecture hyperparameters of a convolution:
(in-channels, out-channels, kernel, stride, padding). -/
def Conv2d.config (c : Conv2d) : Nat × Nat × (Nat × Nat) × (Nat × Nat) × (Nat × Nat) :=
  (c.inCh, c.outCh, (c.kh, c.kw), (c.sh, c.sw), (c.ph, c.pw))

/-- Read a rank-4 tensor at possibly negative spatial coordinates, with the
implicit zero padding of `Conv2d`. -/
def xIdx (x : Tensor4) (i j : Nat) (a b : ℤ) : ℚ :=
  if 0 ≤ a ∧ a < (x.height : ℤ) ∧ 0 ≤ b ∧ b < (x.width : ℤ) then
    x.data i j a.toNat b.toNat
  else 0

/-- Forward pass of a 2-D convolution.  Output spatial size follows the
standard formula `(n + 2p - k) / s + 1`; in every configuration appearing in
this module the kernel satisfies `k = 2p + 1`, so the size is positive for
positive inputs and the framework's degenerate-size error is unreachable. -/
def conv4 (c : Conv2d) (x : Tensor4) : Tensor4 :=
  let oh := (x.height + 2 * c.ph - c.kh) / c.sh + 1
  let ow := (x.width + 2 * c.pw - c.kw) / c.sw + 1
  ⟨x.batch, c.outCh, oh, ow,
    g4 x.batch c.outCh oh ow (fun i o k l =>
      c.bias o + ∑ j ∈ Finset.range c.inCh, ∑ u ∈ Finset.range c.kh,
        ∑ v ∈ Finset.range c.kw,
          c.weight o j u v *
            xIdx x i j ((k * c.sh + u : ℤ) - (c.ph : ℤ)) ((l * c.sw + v : ℤ) - (c.pw : ℤ)))⟩

/-- Model of `F.leaky_relu` on one scalar, negative slope `s`. -/
def lreluQ (s v : ℚ) : ℚ := if 0 ≤ v then v else s * v

/-- Model of `F.leaky_relu` elementwise on a rank-4 tensor. -/
def lrelu4 (s : ℚ) (x : Tensor4) : Tensor4 :=
  ⟨x.batch, x.ch, x.height, x.width, fun i j k l => lreluQ s (x.data i j k l)⟩

/-- Elementwise `x += y` for same-shaped tensors (the shapes agree at every
use in the forward passes: both are `(B, 1, H, W)`). -/
def add4 (x y : Tensor4) : Tensor4 :=
  ⟨x.batch, x.ch, x.height, x.width,
    g4 x.batch x.ch x.height x.width (fun i j k l => x.data i j k l + y.data i j k l)⟩

/-- Model of `torch.flatten(x, 1, -1)`: collapse all but the batch dimension. -/
def flatten14 (x : Tensor4) : Tensor2 :=
  ⟨x.batch, x.ch * (x.height * x.width),
    fun i m =>
      if i < x.batch ∧ m < x.ch * (x.height * x.width) then
        x.data i (m / (x.height * x.width)) (m % (x.height * x.width) / x.width) (m % x.width)
      else 0⟩

/-- Model of `F.pad(x, (0, n), "reflect")` on a `(B, 1, T)` tensor, folded onto the
`(B, T)` view: append `n` samples mirroring the trailing ones (excluding the
edge sample).  The framework rejects a padding amount that is not smaller
than the padded dimension. -/
def reflectPadRight (x : Tensor2) (n : Nat) : Option Tensor2 :=
  if n < x.len then
    some ⟨x.batch, x.len + n, fun i j =>
      if i < x.batch ∧ j < x.len + n then
        (if j < x.len then x.data i j else x.data i (2 * x.len - 2 - j))
      else 0⟩
  else none

/-- Lines 77-81 of the source: pad the time axis up to a multiple of the
period, only when the length is not already divisible. -/
def padStep (p : Nat) (x : Tensor2) : Option Tensor2 :=
  if x.len % p ≠ 0 then reflectPadRight x (p - x.len % p) else some x

/-- Line 83: `x.view(b, c, t // period, period)` composed with the earlier
`unsqueeze(1)`, mapping `(B, T)` to `(B, 1, T / p, p)`. -/
def view4 (x : Tensor2) (p : Nat) : Tensor4 :=
  ⟨x.batch, 1, x.len / p, p,
    g4 x.batch 1 (x.len / p) p (fun i _ k l => x.data i (k * p + l))⟩

/-- Model of `torch.nn.Embedding`: a learned table of `num_embeddings` rows of width
`dim`. -/
structure Embedding where
  num_embeddings : Nat
  dim : Nat
  weight : Nat → Nat → ℚ

/-- The flattening of `self.emb(cond_embedding_id)` performed by
`emb.view(1, -1, 1, 1)`: entry `j` of the row-major flattening of the
`(ids.length, dim)` lookup result. -/
def embFlat (e : Embedding) (ids : List Nat) : Nat → ℚ :=
  fun j => e.weight (ids.getD (j / e.dim) 0) (j % e.dim)

/-- Lines 94-95 (and 198-199): `(emb.view(1, -1, 1, 1) * x).sum(dim=1,
keepdims=True)`.  The embedding lookup fails on an out-of-range id; the
broadcast of `(1, ids.length * dim, 1, 1)` against `(B, C, H, W)` requires
the flattened length and `C` to be channel-compatible (equal, or one of them
1), otherwise the framework raises. -/
def condBias (e : Embedding) (ids : List Nat) (x : Tensor4) : Option Tensor4 :=
  if ∀ i ∈ ids, i < e.num_embeddings then
    let numel := ids.length * e.dim
    if numel = x.ch ∨ numel = 1 ∨ x.ch = 1 then
      let cc := max numel x.ch
      some ⟨x.batch, 1, x.height, x.width,
        g4 x.batch 1 x.height x.width (fun i _ k l =>
          ∑ j ∈ Finset.range cc,
            embFlat e ids (if numel = 1 then 0 else j) *
              x.data i (if x.ch = 1 then 0 else j) k l)⟩
    else none
  else none

/-- The conv-plus-activation loop of `DiscriminatorP.forward` (lines 86-91):
`for i, conv in enumerate(self.convs): x = conv(x); x = leaky_relu(x); if
i > 0: fmap.append(x)`.  Returns the final activation and the collected
feature maps (the first layer's activation excluded). -/
def convLoopP (s : ℚ) : List Conv2d → Tensor4 → Nat → Tensor4 × List Tensor4
  | [], x, _ => (x, [])
  | c :: cs, x, i =>
    let y := lrelu4 s (conv4 c x)
    let r := convLoopP s cs y (i + 1)
    (r.1, (if 0 < i then [y] else []) ++ r.2)

/-- The conv-plus-activation loop of `DiscriminatorR.forward` (lines
192-195): every activation is appended to the feature-map list. -/
def convLoopR (s : ℚ) : List Conv2d → Tensor4 → Tensor4 × List Tensor4
  | [], x => (x, [])
  | c :: cs, x =>
    let y := lrelu4 s (conv4 c x)
    let r := convLoopR s cs y
    (r.1, y :: r.2)

/-- State of a `DiscriminatorP` module: the period, the five weight-normed
convolutions, the optional conditional embedding table (present iff the
instance was built with `num_embeddings`), the post convolution and the
leaky-relu slope.  Parameter values are arbitrary (learned). -/
structure DiscriminatorP where
  period : Nat
  convs : List Conv2d
  emb : Option Embedding
  conv_post : Conv2d
  lrelu_slope : ℚ

/-- The learned parameters of one convolution layer (effective weight after
`weight_norm`, plus bias). -/
structure ConvParams where
  weight : Nat → Nat → Nat → Nat → ℚ
  bias : Nat → ℚ

/-- Learned parameters for a five-conv stack plus its post convolution. -/
structure PParams where
  c1 : ConvParams
  c2 : ConvParams
  c3 : ConvParams
  c4 : ConvParams
  c5 : ConvParams
  post : ConvParams

/-- All-zero parameters for one convolution. -/
def zeroCP : ConvParams := ⟨fun _ _ _ _ => 0, fun _ => 0⟩

/-- All-zero parameters for a five-conv stack. -/
def zeroPParams : PParams := ⟨zeroCP, zeroCP, zeroCP, zeroCP, zeroCP, zeroCP⟩

/-- Build a `Conv2d` from its hyperparameters and learned parameters. -/
def mkConv (ic oc kh kw sh sw ph pw : Nat) (p : ConvParams) : Conv2d :=
  ⟨ic, oc, kh, kw, sh, sw, ph, pw, p.weight, p.bias⟩

/-- Constructor `DiscriminatorP.__init__` (lines 44-66): five convolutions with channel
widths 1→`32`→128→512→1024→1024, kernel `(kernel_size, 1)`, stride
`(stride, 1)` for the first four and `(1, 1)` for the fifth, padding
`(kernel_size // 2, 0)`; an embedding table of width 1024 zero-initialised
when `num_embeddings` is given; post convolution `Conv2d(1024, 1, (3, 1), 1,
padding=(1, 0))`.  The Python signature defaults are `kernel_size=5`,
`stride=3`, `lrelu_slope=0.1`. -/
def DiscriminatorP.init (period ks st : Nat) (slope : ℚ) (ne : Option Nat)
    (P : PParams) : DiscriminatorP :=
  { period := period
    convs := [mkConv 1 32 ks 1 st 1 (ks / 2) 0 P.c1,
              mkConv 32 128 ks 1 st 1 (ks / 2) 0 P.c2,
              mkConv 128 512 ks 1 st 1 (ks / 2) 0 P.c3,
              mkConv 512 1024 ks 1 st 1 (ks / 2) 0 P.c4,
              mkConv 1024 1024 ks 1 1 1 (ks / 2) 0 P.c5]
    emb := ne.map (fun n => ⟨n, 1024, fun _ _ => 0⟩)
    conv_post := mkConv 1024 1 3 1 1 1 1 0 P.post
    lrelu_slope := slope }

/-- Lines 75-91 of `DiscriminatorP.forward`: unsqueeze, tail padding,
period reshape and the convolution loop; `none` when the reflect padding
amount is rejected by the framework. -/
def pStack (D : DiscriminatorP) (x : Tensor2) : Option (Tensor4 × List Tensor4) :=
  (padStep D.period x).map (fun xp => convLoopP D.lrelu_slope D.convs (view4 xp D.period) 0)

/-- Forward pass `DiscriminatorP.forward` (lines 68-107).  With a conditioning id the
embedding must exist (otherwise the attribute access raises) and the bias
term is `condBias`; without one the code silently takes `h = 0`.  The final
convolution's output is appended to the feature-map list and then mutated in
place by `x += h`, so the stored entry is the biased tensor. -/
def DiscriminatorP.forward (D : DiscriminatorP) (x : Tensor2)
    (cond : Option (List Nat)) : Option (Tensor2 × List Tensor4) :=
  (pStack D x).bind (fun st =>
    match cond with
    | none =>
      some (flatten14 (conv4 D.conv_post st.1), st.2 ++ [conv4 D.conv_post st.1])
    | some ids =>
      match D.emb with
      | none => none
      | some e =>
        (condBias e ids st.1).bind (fun hb =>
          some (flatten14 (add4 (conv4 D.conv_post st.1) hb),
                st.2 ++ [add4 (conv4 D.conv_post st.1) hb])))

/-- State of a `DiscriminatorR` module: the (n_fft, hop_length, win_length)
resolution, the five convolutions, the optional embedding, the post
convolution and the slope. -/
structure DiscriminatorR where
  resolution : Nat × Nat × Nat
  convs : List Conv2d
  emb : Option Embedding
  conv_post : Conv2d
  lrelu_slope : ℚ

/-- Waveform sample at a possibly negative (centered-framing) index. -/
def sIdx (x : Tensor2) (i : Nat) (a : ℤ) : ℚ :=
  if 0 ≤ a ∧ a < (x.len : ℤ) then x.data i a.toNat else 0

/-- Method `DiscriminatorR.spectrogram` (lines 214-225): the magnitude of
`torch.stft(x, n_fft, hop_length, win_length, window=None, center=True,
return_complex=True)`.  The STFT is an external framework primitive (spec
§6); what the claims depend on is that it is a deterministic function of the
waveform with output shape `(B, n_fft/2 + 1, T/hop + 1)` (one-sided bins,
centered framing).  The numeric content of the external FFT kernel is
abstracted as the absolute value of the centered rectangular-window frame
sum; the frequency index does not enter this surrogate. -/
def spectrogram (res : Nat × Nat × Nat) (x : Tensor2) : Tensor4 :=
  ⟨x.batch, 1, res.1 / 2 + 1, x.len / res.2.1 + 1,
    g4 x.batch 1 (res.1 / 2 + 1) (x.len / res.2.1 + 1) (fun i _ _ m =>
      |∑ n ∈ Finset.range res.1, sIdx x i ((m * res.2.1 + n : ℤ) - (res.1 / 2 : ℤ))|)⟩

/-- Constructor `DiscriminatorR.__init__` (lines 151-176): five convolutions of constant
channel width with the per-layer kernels/strides/paddings of lines 166-172,
a zero-initialised embedding of width `channels` when `num_embeddings` is
given, and post convolution `Conv2d(channels, 1, (3, 3), padding=(1, 1))`.
Python defaults: `channels=64`, `lrelu_slope=0.1`. -/
def DiscriminatorR.init (res : Nat × Nat × Nat) (channels : Nat) (ne : Option Nat)
    (slope : ℚ) (P : PParams) : DiscriminatorR :=
  { resolution := res
    convs := [mkConv 1 channels 7 5 2 2 3 2 P.c1,
              mkConv channels channels 5 3 2 1 2 1 P.c2,
              mkConv channels channels 5 3 2 2 2 1 P.c3,
              mkConv channels channels 3 3 2 1 1 1 P.c4,
              mkConv channels channels 3 3 2 2 1 1 P.c5]
    emb := ne.map (fun n => ⟨n, channels, fun _ _ => 0⟩)
    conv_post := mkConv channels 1 3 3 1 1 1 1 P.post
    lrelu_slope := slope }

/-- Lines 186-195 of `DiscriminatorR.forward`: spectrogram, unsqueeze and
the convolution loop (all five activations collected). -/
def rStack (D : DiscriminatorR) (x : Tensor2) : Tensor4 × List Tensor4 :=
  convLoopR D.lrelu_slope D.convs (spectrogram D.resolution x)

/-- Forward pass `DiscriminatorR.forward` (lines 178-212), with the same conditioning
branch, post convolution, in-place `x += h` after the feature-map append,
and flattening as `DiscriminatorP.forward`. -/
def DiscriminatorR.forward (D : DiscriminatorR) (x : Tensor2)
    (cond : Option (List Nat)) : Option (Tensor2 × List Tensor4) :=
  match cond with
  | none =>
    some (flatten14 (conv4 D.conv_post (rStack D x).1),
          (rStack D x).2 ++ [conv4 D.conv_post (rStack D x).1])
  | some ids =>
    match D.emb with
    | none => none
    | some e =>
      (condBias e ids (rStack D x).1).bind (fun hb =>
        some (flatten14 (add4 (conv4 D.conv_post (rStack D x).1) hb),
              (rStack D x).2 ++ [add4 (conv4 D.conv_post (rStack D x).1) hb]))

/-- The quadruple returned by the ensemble forwards: real scores, generated
scores, real feature-map lists, generated feature-map lists. -/
abbrev EnsembleOut :=
  List Tensor2 × List Tensor2 × List (List Tensor4) × List (List Tensor4)

/-- The member loop shared by both ensemble forwards (lines 32-38 and
139-145): run each member on the real and the generated batch with the same
conditioning id and collect the four parallel lists; a failing member call
aborts the whole ensemble call. -/
def ensembleGo {α : Type}
    (f : α → Tensor2 → Option (List Nat) → Option (Tensor2 × List Tensor4))
    (y yh : Tensor2) (cond : Option (List Nat)) : List α → Option EnsembleOut
  | [] => some ([], [], [], [])
  | d :: ds =>
    match f d y cond, f d yh cond, ensembleGo f y yh cond ds with
    | some r, some g, some rest =>
      some (r.1 :: rest.1, g.1 :: rest.2.1, r.2 :: rest.2.2.1, g.2 :: rest.2.2.2)
    | _, _, _ => none

/-- State of `MultiPeriodDiscriminator`: the ordered list of member discriminators. -/
structure MultiPeriodDiscriminator where
  discriminators : List DiscriminatorP

/-- Constructor `MultiPeriodDiscriminator.__init__` (lines 21-23): one
`DiscriminatorP(period=p, num_embeddings=num_embeddings)` per period, in
order, each independently parameterized (the remaining hyperparameters take
their Python defaults `kernel_size=5`, `stride=3`, `lrelu_slope=0.1`). -/
def MultiPeriodDiscriminator.init (periods : List Nat) (ne : Option Nat)
    (prm : Nat → PParams) : MultiPeriodDiscriminator :=
  ⟨periods.map (fun p => DiscriminatorP.init p 5 3 (1 / 10) ne (prm p))⟩

/-- Forward pass `MultiPeriodDiscriminator.forward` (lines 25-40). -/
def MultiPeriodDiscriminator.forward (M : MultiPeriodDiscriminator)
    (y yh : Tensor2) (cond : Option (List Nat)) : Option EnsembleOut :=
  ensembleGo DiscriminatorP.forward y yh cond M.discriminators

/-- State of `MultiResolutionDiscriminator`: the ordered list of member
discriminators. -/
structure MultiResolutionDiscriminator where
  discriminators : List DiscriminatorR

/-- Constructor `MultiResolutionDiscriminator.__init__` (lines 111-126): one
`DiscriminatorR(resolution=r, num_embeddings=num_embeddings)` per resolution
triplet, in order (defaults `channels=64`, `lrelu_slope=0.1`). -/
def MultiResolutionDiscriminator.init (rs : List (Nat × Nat × Nat))
    (ne : Option Nat) (prm : Nat × Nat × Nat → PParams) : MultiResolutionDiscriminator :=
  ⟨rs.map (fun r => DiscriminatorR.init r 64 ne (1 / 10) (prm r))⟩

/-- Forward pass `MultiResolutionDiscriminator.forward` (lines 128-147). -/
def MultiResolutionDiscriminator.forward (M : MultiResolutionDiscriminator)
    (y yh : Tensor2) (cond : Option (List Nat)) : Option EnsembleOut :=
  ensembleGo DiscriminatorR.forward y yh cond M.discriminators

/-- A zero waveform batch of shape (1, 2). -/
def ex1 : Tensor2 := ⟨1, 2, fun _ _ => 0⟩

/-- A zero waveform batch of shape (1, 3). -/
def ex3 : Tensor2 := ⟨1, 3, fun _ _ => 0⟩

/-- A zero waveform batch of shape (2, 2). -/
def exB2 : Tensor2 := ⟨2, 2, fun _ _ => 0⟩

/-- A zero waveform batch of shape (1, 6). -/
def ex6 : Tensor2 := ⟨1, 6, fun _ _ => 0⟩

/-- An unconditional `DiscriminatorP(period=2)` with zero parameters. -/
def uncondP : DiscriminatorP := DiscriminatorP.init 2 5 3 (1 / 10) none zeroPParams

/-- A conditional `DiscriminatorP(period=2, num_embeddings=2)` with zero
parameters (freshly constructed: the embedding table is all zeros). -/
def condP2 : DiscriminatorP := DiscriminatorP.init 2 5 3 (1 / 10) (some 2) zeroPParams

/-- An unconditional `DiscriminatorR` at a tiny resolution with zero
parameters. -/
def uncondR : DiscriminatorR := DiscriminatorR.init (2, 1, 2) 64 none (1 / 10) zeroPParams

/-- A conditional `DiscriminatorR(num_embeddings=2)` at a tiny resolution
with zero parameters. -/
def condR2 : DiscriminatorR := DiscriminatorR.init (2, 1, 2) 64 (some 2) (1 / 10) zeroPParams

/-- A zero waveform batch of shape (1, 1). -/
def ex1s : Tensor2 := ⟨1, 1, fun _ _ => 0⟩

/-- An unconditional `DiscriminatorP(period=5)` with zero parameters. -/
def uncondP5 : DiscriminatorP := DiscriminatorP.init 5 5 3 (1 / 10) none zeroPParams

/-- A two-member unconditional `MultiPeriodDiscriminator(periods=(2, 3))`. -/
def myMPD : MultiPeriodDiscriminator :=
  MultiPeriodDiscriminator.init [2, 3] none (fun _ => zeroPParams)

/-- A one-member unconditional `MultiResolutionDiscriminator`. -/
def myMRD : MultiResolutionDiscriminator :=
  MultiResolutionDiscriminator.init [(2, 1, 2)] none (fun _ => zeroPParams)

/-- Specification of the tail-padding step: the padded length is the
smallest multiple of `p` at least the input length, nothing happens on exact
multiples, the batch is untouched, and appended samples mirror the trailing
samples (reflect), so they are neither zeros nor a truncation. -/
def padSpec (p : Nat) (x xp : Tensor2) : Prop :=
  (p ∣ xp.len ∧ x.len ≤ xp.len ∧ ∀ m, p ∣ m → x.len ≤ m → xp.len ≤ m)
  ∧ (x.len % p = 0 → xp = x)
  ∧ xp.batch = x.batch
  ∧ ∀ i j, i < x.batch → x.len ≤ j → j < xp.len →
      xp.data i j = x.data i (2 * x.len - 2 - j)

/-- Default `Tensor2` used for positional lookups with `List.getD`. -/
def dT2 : Tensor2 := ⟨0, 0, fun _ _ => 0⟩

/-- The four-sequence fan-out contract transcribed from the claim: each
returned sequence has one entry per member, and the `i`-th entries are the
outputs of the `i`-th configured member applied to the real and generated
batches respectively, in construction order. -/
def ensembleContract {α : Type}
    (f : α → Tensor2 → Option (List Nat) → Option (Tensor2 × List Tensor4))
    (ds : List α) (y yh : Tensor2) (cond : Option (List Nat))
    (r : EnsembleOut) : Prop :=
  r.1.length = ds.length ∧ r.2.1.length = ds.length ∧ r.2.2.1.length = ds.length
  ∧ r.2.2.2.length = ds.length
  ∧ ∀ i : Nat, ∀ hi : i < ds.length, ∃ pr pg,
      f ds[i] y cond = some pr ∧ f ds[i] yh cond = some pg
      ∧ r.1.getD i dT2 = pr.1 ∧ r.2.2.1.getD i [] = pr.2
      ∧ r.2.1.getD i dT2 = pg.1 ∧ r.2.2.2.getD i [] = pg.2

/-- What the bias computation actually does for a single conditioning id
shared by the whole batch: a `(batch, 1, ·, ·)` tensor whose entries are the
channel-wise product of that one embedding row with the activation, summed
over channels. -/
def biasSpec (e : Embedding) (id : Nat) (x : Tensor4) (t : Tensor4) : Prop :=
  t.batch = x.batch ∧ t.ch = 1 ∧ t.height = x.height ∧ t.width = x.width
  ∧ ∀ i k l, i < x.batch → k < x.height → l < x.width →
      t.data i 0 k l = ∑ j ∈ Finset.range x.ch, e.weight id j * x.data i j k l

/-- A tiny embedding table with two-entry rows for the C6 witness. -/
def e0 : Embedding := ⟨1, 2, fun a b => (a : ℚ) + b⟩

/-- A tiny `(1, 2, 1, 1)` activation for the C6 witness. -/
def x0 : Tensor4 := ⟨1, 2, 1, 1, fun _ _ _ _ => 1⟩

/-- The conv stack of `condP2` on `ex1`, used in the C7 witness. -/
def stP2 : Tensor4 × List Tensor4 := convLoopP (1 / 10) condP2.convs (view4 ex1 2) 0

/-- The (zero) embedding table of `condP2`. -/
def eP2 : Embedding := ⟨2, 1024, fun _ _ => 0⟩

/-- The bias tensor `condP2` computes for id 0 on `ex1`. -/
def hbP2 : Tensor4 := (condBias eP2 [0] stP2.1).get (by rfl)

/-- The conv stack of `condR2` on `ex1`, used in the C7 witness. -/
def stR2 : Tensor4 × List Tensor4 := rStack condR2 ex1

/-- The (zero) embedding table of `condR2`. -/
def eR2 : Embedding := ⟨2, 64, fun _ _ => 0⟩

/-- The bias tensor `condR2` computes for id 0 on `ex1`. -/
def hbR2 : Tensor4 := (condBias eR2 [0] stR2.1).get (by rfl)

/-- A constant-valued guarded tensor. -/
def constT (b c h w : Nat) (v : ℚ) : Tensor4 := ⟨b, c, h, w, g4 b c h w (fun _ _ _ _ => v)⟩

/-- Conv parameters with zero weight and constant bias 1 (a reachable
trained state). -/
def onesBiasCP : ConvParams := ⟨fun _ _ _ _ => 0, fun _ => 1⟩

/-- Trained parameters for the C7 counterexample: every stack convolution
has zero weight and bias 1, the post convolution is all zero. -/
def trainedPParams : PParams :=
  ⟨onesBiasCP, onesBiasCP, onesBiasCP, onesBiasCP, onesBiasCP, zeroCP⟩

/-- An all-ones embedding table of width 1024 (a reachable trained state of
the zero-initialised table). -/
def e1 : Embedding := ⟨2, 1024, fun _ _ => 1⟩

/-- A conditional `DiscriminatorP(period=2, num_embeddings=2)` whose learned
parameters have been trained away from initialization: stack conv biases 1,
embedding rows all ones, post convolution zero. -/
def trainedP : DiscriminatorP :=
  { DiscriminatorP.init 2 5 3 (1 / 10) (some 2) trainedPParams with emb := some e1 }

/-- The conv stack of `trainedP` on `ex1`. -/
def stT : Tensor4 × List Tensor4 := convLoopP (1 / 10) trainedP.convs (view4 ex1 2) 0

/-- Extensionality for `Tensor4`: equal shapes and equal data functions give
equal tensors. -/
theorem Tensor4.ext' {x y : Tensor4} (hb : x.batch = y.batch) (hc : x.ch = y.ch)
    (hh : x.height = y.height) (hw : x.width = y.width) (hd : x.data = y.data) : x = y := by
  cases x; cases y; cases hb; cases hc; cases hh; cases hw; cases hd; rfl

/-- Guarding is idempotent. -/
theorem g4_idem (b c h w : Nat) (f : Nat → Nat → Nat → Nat → ℚ) :
    g4 b c h w (g4 b c h w f) = g4 b c h w f := by
  funext i j k l
  by_cases hp : i < b ∧ j < c ∧ k < h ∧ l < w <;> simp [g4, hp]

/-- Started at a positive index, the `DiscriminatorP` conv loop collects one
feature map per remaining layer. -/
theorem convLoopP_len_pos (s : ℚ) :
    ∀ (cs : List Conv2d) (x : Tensor4) (i : Nat), 0 < i →
      ((convLoopP s cs x i).2).length = cs.length
  | [], _, _, _ => rfl
  | c :: cs, x, i, hi => by
    simp only [convLoopP, if_pos hi, List.singleton_append, List.length_cons,
      convLoopP_len_pos s cs _ (i + 1) (Nat.succ_pos i)]

/-- Started at index 0 (as `forward` does), the conv loop collects one
feature map per layer except the first. -/
theorem convLoopP_len_zero (s : ℚ) (cs : List Conv2d) (x : Tensor4) :
    ((convLoopP s cs x 0).2).length = cs.length - 1 := by
  cases cs with
  | nil => rfl
  | cons c cs =>
    simp only [convLoopP, if_neg (lt_irrefl 0), List.nil_append, List.length_cons,
      Nat.add_sub_cancel, convLoopP_len_pos s cs _ 1 Nat.one_pos]

/-- The `DiscriminatorR` conv loop collects one feature map per layer. -/
theorem convLoopR_len (s : ℚ) :
    ∀ (cs : List Conv2d) (x : Tensor4), ((convLoopR s cs x).2).length = cs.length
  | [], _ => rfl
  | c :: cs, x => by
    simp only [convLoopR, List.length_cons, convLoopR_len s cs _]

/-- Every successful `DiscriminatorP.forward` call returns a feature-map list
with one entry per convolution except the first, plus the post-conv entry. -/
theorem forwardP_fmap_len (D : DiscriminatorP) (x : Tensor2)
    (cond : Option (List Nat)) (r : Tensor2 × List Tensor4)
    (h : D.forward x cond = some r) : r.2.length = D.convs.length - 1 + 1 := by
  unfold DiscriminatorP.forward at h
  cases hpad : padStep D.period x with
  | none => rw [pStack, hpad] at h; simp at h
  | some xp =>
    rw [pStack, hpad] at h
    simp only [Option.map_some', Option.some_bind] at h
    cases cond with
    | none =>
      simp only [Option.some_inj] at h
      subst h
      simp [convLoopP_len_zero]
    | some ids =>
      cases hemb : D.emb with
      | none => simp [hemb] at h
      | some e =>
        simp only [hemb] at h
        cases hcb : condBias e ids (convLoopP D.lrelu_slope D.convs (view4 xp D.period) 0).1 with
        | none => rw [hcb] at h; simp at h
        | some hb =>
          rw [hcb] at h
          simp only [Option.some_bind, Option.some_inj] at h
          subst h
          simp [convLoopP_len_zero]

/-- Every successful `DiscriminatorR.forward` call returns a feature-map list
with one entry per convolution plus the post-conv entry. -/
theorem forwardR_fmap_len (D : DiscriminatorR) (x : Tensor2)
    (cond : Option (List Nat)) (r : Tensor2 × List Tensor4)
    (h : D.forward x cond = some r) : r.2.length = D.convs.length + 1 := by
  unfold DiscriminatorR.forward at h
  cases cond with
  | none =>
    simp only [Option.some_inj] at h
    subst h
    simp [rStack, convLoopR_len]
  | some ids =>
    cases hemb : D.emb with
    | none => simp [hemb] at h
    | some e =>
      simp only [hemb] at h
      cases hcb : condBias e ids (rStack D x).1 with
      | none => rw [hcb] at h; simp at h
      | some hb =>
        rw [hcb] at h
        simp only [Option.some_bind, Option.some_inj] at h
        subst h
        simp [rStack, convLoopR_len]

/-- C3: For every input waveform batch of any batch size and time length,
every `DiscriminatorP.forward` call returns a feature-map list of length
exactly 5 (activations of conv layers 2-5 plus the post-conv output, the
first layer's activation excluded), and every `DiscriminatorR.forward` call
returns a feature-map list of length exactly 6 (all five conv activations
plus the post-conv output). -/
theorem C3_fmap_lengths :
    (∀ (p ks st : Nat) (sl : ℚ) (ne : Option Nat) (P : PParams) (x : Tensor2)
       (cond : Option (List Nat))
       (h : ((DiscriminatorP.init p ks st sl ne P).forward x cond).isSome),
       (((DiscriminatorP.init p ks st sl ne P).forward x cond).get h).2.length = 5)
    ∧ ∀ (res : Nat × Nat × Nat) (ch : Nat) (ne : Option Nat) (sl : ℚ) (P : PParams)
       (x : Tensor2) (cond : Option (List Nat))
       (h : ((DiscriminatorR.init res ch ne sl P).forward x cond).isSome),
       (((DiscriminatorR.init res ch ne sl P).forward x cond).get h).2.length = 6 := by
  constructor
  · intro p ks st sl ne P x cond h
    exact forwardP_fmap_len _ x cond _ (Option.some_get h).symm
  · intro res ch ne sl P x cond h
    exact forwardR_fmap_len _ x cond _ (Option.some_get h).symm

/-- Witness for C3 at concrete conditional instances and a (1, 2) input. -/
theorem C3_fmap_lengths_witness :
    (((condP2.forward ex1 none).get (by rfl)).2.length = 5)
    ∧ ((condR2.forward ex1 none).get (by rfl)).2.length = 6 :=
  ⟨C3_fmap_lengths.1 2 5 3 (1 / 10) (some 2) zeroPParams ex1 none (by rfl),
   C3_fmap_lengths.2 (2, 1, 2) 64 (some 2) (1 / 10) zeroPParams ex1 none (by rfl)⟩

/-- Running the member loop on identical real and generated batches yields
identical real/generated score lists and feature-map lists. -/
theorem ensembleGo_self {α : Type}
    (f : α → Tensor2 → Option (List Nat) → Option (Tensor2 × List Tensor4))
    (y : Tensor2) (cond : Option (List Nat)) :
    ∀ ds : List α,
      (ensembleGo f y y cond ds).map (fun r => (r.1, r.2.2.1))
        = (ensembleGo f y y cond ds).map (fun r => (r.2.1, r.2.2.2))
  | [] => rfl
  | d :: ds => by
    have ih := ensembleGo_self f y cond ds
    simp only [ensembleGo]
    cases hf : f d y cond with
    | none => rfl
    | some r =>
      cases hrest : ensembleGo f y y cond ds with
      | none => rfl
      | some rest =>
        rw [hrest] at ih
        simp only [Option.map_some', Option.some_inj, Prod.mk.injEq] at ih ⊢
        exact ⟨by rw [ih.1], by rw [ih.2]⟩

/-- C10: For every `MultiPeriodDiscriminator` or
`MultiResolutionDiscriminator`, every conditioning id, and every input where
the generated batch equals the real batch, the returned real-score sequence
equals the generated-score sequence and the real feature-map-list sequence
equals the generated one, because each member is applied as the same
deterministic function to both inputs with the same conditioning id. -/
theorem C10_identical_inputs_symmetric :
    (∀ (M : MultiPeriodDiscriminator) (y : Tensor2) (cond : Option (List Nat)),
      (M.forward y y cond).map (fun r => (r.1, r.2.2.1))
        = (M.forward y y cond).map (fun r => (r.2.1, r.2.2.2)))
    ∧ ∀ (M : MultiResolutionDiscriminator) (y : Tensor2) (cond : Option (List Nat)),
      (M.forward y y cond).map (fun r => (r.1, r.2.2.1))
        = (M.forward y y cond).map (fun r => (r.2.1, r.2.2.2)) :=
  ⟨fun M y cond => ensembleGo_self DiscriminatorP.forward y cond M.discriminators,
   fun M y cond => ensembleGo_self DiscriminatorR.forward y cond M.discriminators⟩

/-- C9: For a `DiscriminatorP` with period `p` and input time length `T` with
`T % p ≠ 0`, the forward pass unconditionally applies reflect padding of
amount `p - T % p` with no special case for short inputs; it is defined only
when that amount is at most `T - 1`, and otherwise the call fails.  The last
conjunct checks the claimed example bound: any `0 < T < p / 2 + 1` violates
the definedness condition. -/
theorem C9_short_input_failure (D : DiscriminatorP) (x : Tensor2)
    (cond : Option (List Nat)) (h1 : x.len % D.period ≠ 0)
    (h2 : ¬ (D.period - x.len % D.period < x.len)) :
    D.forward x cond = none
    ∧ padStep D.period x = reflectPadRight x (D.period - x.len % D.period)
    ∧ ∀ p T : Nat, 0 < T → T < p / 2 + 1 → T % p ≠ 0 ∧ ¬ (p - T % p < T) := by
  refine ⟨?_, if_pos h1, ?_⟩
  · unfold DiscriminatorP.forward pStack padStep reflectPadRight
    rw [if_pos h1, if_neg h2]
    rfl
  · intro p T hT hlt
    have hp0 : 0 < p := by omega
    have hTp : T < p := by omega
    have hmod : T % p = T := Nat.mod_eq_of_lt hTp
    rw [hmod]
    omega

/-- Witness for C9: period 5, input length 1 (padding amount 4 ≥ 1). -/
theorem C9_short_input_failure_witness :
    ex1s.len % uncondP5.period ≠ 0
    ∧ ¬ (uncondP5.period - ex1s.len % uncondP5.period < ex1s.len)
    ∧ uncondP5.forward ex1s none = none :=
  ⟨by decide, by decide, (C9_short_input_failure uncondP5 ex1s none (by decide) (by decide)).1⟩

/-- C4: For every `DiscriminatorP` with period `p` and every input of time
length `T`, the length after the padding step is the smallest multiple of
`p` that is at least `T` (no padding when `p` divides `T`), and appended
samples are a reflect-style mirror of the trailing samples. -/
theorem C4_pad_smallest_multiple_reflect (p : Nat) (x : Tensor2) (hp : 0 < p)
    (h : (padStep p x).isSome) : padSpec p x ((padStep p x).get h) := by
  by_cases hmod : x.len % p = 0
  · have hstep : padStep p x = some x := by simp [padStep, hmod]
    have hget : (padStep p x).get h = x := by simp [hstep]
    rw [hget]
    refine ⟨⟨Nat.dvd_of_mod_eq_zero hmod, le_refl _, fun m _ hm => hm⟩,
      fun _ => rfl, rfl, fun i j _ hj hj' => absurd (lt_of_le_of_lt hj hj') (lt_irrefl _)⟩
  · have hm := Nat.div_add_mod x.len p
    have hlt := Nat.mod_lt x.len hp
    have hn : p - x.len % p < x.len := by
      by_contra hge
      have : padStep p x = none := by
        simp [padStep, hmod, reflectPadRight, hge]
      rw [this] at h
      simp at h
    have hstep : padStep p x =
        some ⟨x.batch, x.len + (p - x.len % p), fun i j =>
          if i < x.batch ∧ j < x.len + (p - x.len % p) then
            (if j < x.len then x.data i j else x.data i (2 * x.len - 2 - j))
          else 0⟩ := by
      simp [padStep, hmod, reflectPadRight, hn]
    have hget : (padStep p x).get h =
        ⟨x.batch, x.len + (p - x.len % p), fun i j =>
          if i < x.batch ∧ j < x.len + (p - x.len % p) then
            (if j < x.len then x.data i j else x.data i (2 * x.len - 2 - j))
          else 0⟩ := by
      simp [hstep]
    rw [hget]
    refine ⟨⟨⟨x.len / p + 1, ?_⟩, Nat.le_add_right _ _, ?_⟩, fun he => absurd he hmod,
      rfl, ?_⟩
    · show x.len + (p - x.len % p) = p * (x.len / p + 1)
      rw [Nat.mul_add, Nat.mul_one]
      omega
    · intro m hdvd hle
      obtain ⟨k, rfl⟩ := hdvd
      show x.len + (p - x.len % p) ≤ p * k
      have h1 : x.len / p + 1 ≤ k := by
        by_contra hk
        push_neg at hk
        have h2 : p * k ≤ p * (x.len / p) := Nat.mul_le_mul_left p (by omega)
        omega
      have h2 : p * (x.len / p + 1) ≤ p * k := Nat.mul_le_mul_left p h1
      rw [Nat.mul_add, Nat.mul_one] at h2
      omega
    · intro i j hi hj hj'
      have hj2 : j < x.len + (p - x.len % p) := hj'
      show (if i < x.batch ∧ j < x.len + (p - x.len % p) then
          (if j < x.len then x.data i j else x.data i (2 * x.len - 2 - j)) else 0)
        = x.data i (2 * x.len - 2 - j)
      rw [if_pos ⟨hi, hj2⟩, if_neg (not_lt.mpr hj)]

/-- Witness for C4 at period 2 and a (1, 3) input (padding amount 1). -/
theorem C4_pad_smallest_multiple_reflect_witness :
    0 < 2 ∧ padSpec 2 ex3 ((padStep 2 ex3).get (by rfl)) :=
  ⟨by decide, C4_pad_smallest_multiple_reflect 2 ex3 (by decide) (by rfl)⟩

/-- C8: Every `DiscriminatorP` instance (as constructed with the source's
default hyperparameters `kernel_size=5`, `stride=3`, `lrelu_slope=0.1`,
which is how `MultiPeriodDiscriminator` builds all of them) applies five 2-D
convolutions with channel widths 1→32→128→512→1024→1024, kernel (5, 1),
stride (3, 1) for the first four layers and (1, 1) for the fifth, padding
(2, 0), each followed in `convLoopP` by a leaky-ReLU with negative slope
0.1, before the final 1-channel post convolution with kernel (3, 1) and
padding (1, 0). -/
theorem C8_conv_architecture (p : Nat) (ne : Option Nat) (P : PParams) :
    ((DiscriminatorP.init p 5 3 (1 / 10) ne P).convs.map Conv2d.config
      = [(1, 32, (5, 1), (3, 1), (2, 0)), (32, 128, (5, 1), (3, 1), (2, 0)),
         (128, 512, (5, 1), (3, 1), (2, 0)), (512, 1024, (5, 1), (3, 1), (2, 0)),
         (1024, 1024, (5, 1), (1, 1), (2, 0))])
    ∧ (DiscriminatorP.init p 5 3 (1 / 10) ne P).conv_post.config
        = (1024, 1, (3, 1), (1, 1), (1, 0))
    ∧ (DiscriminatorP.init p 5 3 (1 / 10) ne P).lrelu_slope = 1 / 10
    ∧ (∀ (s : ℚ) (c : Conv2d) (cs : List Conv2d) (x : Tensor4) (i : Nat),
        convLoopP s (c :: cs) x i
          = ((convLoopP s cs (lrelu4 s (conv4 c x)) (i + 1)).1,
             (if 0 < i then [lrelu4 s (conv4 c x)] else [])
               ++ (convLoopP s cs (lrelu4 s (conv4 c x)) (i + 1)).2))
    ∧ ∀ (periods : List Nat) (prm : Nat → PParams) (d : DiscriminatorP),
        d ∈ (MultiPeriodDiscriminator.init periods ne prm).discriminators →
          d.convs.map Conv2d.config
            = [(1, 32, (5, 1), (3, 1), (2, 0)), (32, 128, (5, 1), (3, 1), (2, 0)),
               (128, 512, (5, 1), (3, 1), (2, 0)), (512, 1024, (5, 1), (3, 1), (2, 0)),
               (1024, 1024, (5, 1), (1, 1), (2, 0))]
          ∧ d.conv_post.config = (1024, 1, (3, 1), (1, 1), (1, 0))
          ∧ d.lrelu_slope = 1 / 10 := by
  refine ⟨rfl, rfl, rfl, fun s c cs x i => rfl, ?_⟩
  intro periods prm d hd
  simp only [MultiPeriodDiscriminator.init, List.mem_map] at hd
  obtain ⟨q, _, rfl⟩ := hd
  exact ⟨rfl, rfl, rfl⟩

/-- Witness for C8: the first member of a `MultiPeriodDiscriminator` built
from periods (2, 3). -/
theorem C8_conv_architecture_witness :
    uncondP.convs.map Conv2d.config
      = [(1, 32, (5, 1), (3, 1), (2, 0)), (32, 128, (5, 1), (3, 1), (2, 0)),
         (128, 512, (5, 1), (3, 1), (2, 0)), (512, 1024, (5, 1), (3, 1), (2, 0)),
         (1024, 1024, (5, 1), (1, 1), (2, 0))]
    ∧ uncondP.conv_post.config = (1024, 1, (3, 1), (1, 1), (1, 0))
    ∧ uncondP.lrelu_slope = 1 / 10 :=
  (C8_conv_architecture 2 none zeroPParams).2.2.2.2 [2, 3] (fun _ => zeroPParams)
    uncondP (List.Mem.head _)

/-- Counterexample to C1 as stated: on a conditionally-constructed
`DiscriminatorP` (here `num_embeddings=2`), calling forward with
`cond_embedding_id = None` does **not** fail: the code takes the `h = 0`
branch and returns a result. -/
theorem C1_counterexample : (condP2.forward ex1 none).isSome = true := by rfl

/-- C1 (amended): supplying a conditioning id to an
unconditionally-constructed sub-discriminator fails (the `self.emb`
attribute access raises), but omitting the id for a
conditionally-constructed one does not fail: the forward silently performs
the unconditional computation (the instance's embedding table is never
consulted, so the result coincides with that of the same instance stripped
of its embedding). -/
theorem C1_conditioning_mode (D : DiscriminatorP) (Dr : DiscriminatorR)
    (x : Tensor2) (ids : List Nat) (hD : D.emb = none) (hDr : Dr.emb = none) :
    D.forward x (some ids) = none
    ∧ (∀ D' : DiscriminatorP, D'.forward x none = { D' with emb := none }.forward x none)
    ∧ Dr.forward x (some ids) = none
    ∧ ∀ Dr' : DiscriminatorR, Dr'.forward x none = { Dr' with emb := none }.forward x none := by
  refine ⟨?_, fun D' => rfl, ?_, fun Dr' => rfl⟩
  · unfold DiscriminatorP.forward
    cases hps : pStack D x <;> simp [hD]
  · unfold DiscriminatorR.forward
    simp [hDr]

/-- Witness for C1 at concrete unconditional and conditional instances. -/
theorem C1_conditioning_mode_witness :
    uncondP.forward ex1 (some [0]) = none
    ∧ condP2.forward ex1 none = { condP2 with emb := none }.forward ex1 none
    ∧ uncondR.forward ex1 (some [0]) = none
    ∧ condR2.forward ex1 none = { condR2 with emb := none }.forward ex1 none :=
  ⟨(C1_conditioning_mode uncondP uncondR ex1 [0] rfl rfl).1,
   (C1_conditioning_mode uncondP uncondR ex1 [0] rfl rfl).2.1 condP2,
   (C1_conditioning_mode uncondP uncondR ex1 [0] rfl rfl).2.2.1,
   (C1_conditioning_mode uncondP uncondR ex1 [0] rfl rfl).2.2.2 condR2⟩

/-- The member loop satisfies the fan-out contract whenever it returns. -/
theorem ensembleGo_contract {α : Type}
    (f : α → Tensor2 → Option (List Nat) → Option (Tensor2 × List Tensor4))
    (y yh : Tensor2) (cond : Option (List Nat)) :
    ∀ (ds : List α) (r : EnsembleOut),
      ensembleGo f y yh cond ds = some r → ensembleContract f ds y yh cond r
  | [], r, h => by
    simp only [ensembleGo, Option.some_inj] at h
    subst h
    exact ⟨rfl, rfl, rfl, rfl, fun i hi => absurd hi (Nat.not_lt_zero i)⟩
  | d :: ds, r, h => by
    simp only [ensembleGo] at h
    cases hf : f d y cond with
    | none => rw [hf] at h; exact absurd h (by simp)
    | some pr =>
      cases hg : f d yh cond with
      | none => rw [hf, hg] at h; exact absurd h (by simp)
      | some pg =>
        cases hrest : ensembleGo f y yh cond ds with
        | none => rw [hf, hg, hrest] at h; exact absurd h (by simp)
        | some rest =>
          rw [hf, hg, hrest] at h
          simp only [Option.some_inj] at h
          subst h
          obtain ⟨l1, l2, l3, l4, hidx⟩ := ensembleGo_contract f y yh cond ds rest hrest
          refine ⟨by simp [l1], by simp [l2], by simp [l3], by simp [l4], ?_⟩
          intro i hi
          cases i with
          | zero => exact ⟨pr, pg, hf, hg, rfl, rfl, rfl, rfl⟩
          | succ n =>
            obtain ⟨pr', pg', h1, h2, h3, h4, h5, h6⟩ :=
              hidx n (Nat.lt_of_succ_lt_succ hi)
            exact ⟨pr', pg', by simpa using h1, by simpa using h2,
              by simpa using h3, by simpa using h4, by simpa using h5,
              by simpa using h6⟩

/-- C2: For every `MultiPeriodDiscriminator` (resp.
`MultiResolutionDiscriminator`) constructed from `n` periods (resp. `n`
resolution triplets), a returning `forward(y, y_hat, bandwidth_id)` call
yields exactly four sequences, each of length `n`, where the `i`-th entries
are the outputs of the `i`-th configured member applied to `y` and to
`y_hat` respectively, in construction order (the forwards are pure
functions, so this holds identically across repeated calls). -/
theorem C2_ensemble_fanout (M : MultiPeriodDiscriminator)
    (Rd : MultiResolutionDiscriminator) (y yh y2 yh2 : Tensor2)
    (c c' : Option (List Nat)) (hM : (M.forward y yh c).isSome)
    (hR : (Rd.forward y2 yh2 c').isSome) :
    ensembleContract DiscriminatorP.forward M.discriminators y yh c
      ((M.forward y yh c).get hM)
    ∧ ensembleContract DiscriminatorR.forward Rd.discriminators y2 yh2 c'
      ((Rd.forward y2 yh2 c').get hR)
    ∧ (∀ (ps : List Nat) (ne : Option Nat) (prm : Nat → PParams),
        (MultiPeriodDiscriminator.init ps ne prm).discriminators.length = ps.length)
    ∧ ∀ (rs : List (Nat × Nat × Nat)) (ne : Option Nat)
        (prm : Nat × Nat × Nat → PParams),
        (MultiResolutionDiscriminator.init rs ne prm).discriminators.length
          = rs.length := by
  refine ⟨?_, ?_, fun ps ne prm => List.length_map _ _, fun rs ne prm => List.length_map _ _⟩
  · exact ensembleGo_contract _ y yh c M.discriminators _ (Option.some_get hM).symm
  · exact ensembleGo_contract _ y2 yh2 c' Rd.discriminators _ (Option.some_get hR).symm

/-- Witness for C2 at a two-member MPD and a one-member MRD. -/
theorem C2_ensemble_fanout_witness :
    ensembleContract DiscriminatorP.forward myMPD.discriminators ex6 ex6 none
      ((myMPD.forward ex6 ex6 none).get (by rfl))
    ∧ ensembleContract DiscriminatorR.forward myMRD.discriminators ex1 ex1 none
      ((myMRD.forward ex1 ex1 none).get (by rfl)) :=
  ⟨(C2_ensemble_fanout myMPD myMRD ex6 ex6 ex1 ex1 none none (by rfl) (by rfl)).1,
   (C2_ensemble_fanout myMPD myMRD ex6 ex6 ex1 ex1 none none (by rfl) (by rfl)).2.1⟩

/-- A convolution output's data function is its own guard. -/
theorem conv4_data_guarded (c : Conv2d) (x : Tensor4) :
    g4 (conv4 c x).batch (conv4 c x).ch (conv4 c x).height (conv4 c x).width
      (conv4 c x).data = (conv4 c x).data :=
  g4_idem _ _ _ _ _

/-- Adding an everywhere-zero tensor to a guarded tensor is the identity. -/
theorem add4_right_zero (x y : Tensor4)
    (hx : g4 x.batch x.ch x.height x.width x.data = x.data)
    (hy : ∀ i j k l, y.data i j k l = 0) : add4 x y = x := by
  refine Tensor4.ext' rfl rfl rfl rfl ?_
  show g4 x.batch x.ch x.height x.width
      (fun i j k l => x.data i j k l + y.data i j k l) = x.data
  have hfun : (fun i j k l => x.data i j k l + y.data i j k l) = x.data := by
    funext i j k l
    rw [hy, add_zero]
  rw [hfun, hx]

/-- With an all-zero embedding table, a single valid conditioning id always
produces a bias tensor that is numerically zero everywhere. -/
theorem condBias_zero_weight (e : Embedding) (id : Nat) (x : Tensor4)
    (hw : ∀ a b, e.weight a b = 0) (h1 : id < e.num_embeddings)
    (h2 : e.dim = x.ch) :
    ∃ t, condBias e [id] x = some t ∧ ∀ i j k l, t.data i j k l = 0 := by
  have hmem : ∀ i ∈ [id], i < e.num_embeddings := by simpa using h1
  have hnum : [id].length * e.dim = x.ch := by simpa using h2
  have hsome : condBias e [id] x = some ⟨x.batch, 1, x.height, x.width,
      g4 x.batch 1 x.height x.width (fun i _ k l =>
        ∑ j ∈ Finset.range (max ([id].length * e.dim) x.ch),
          embFlat e [id] (if [id].length * e.dim = 1 then 0 else j) *
            x.data i (if x.ch = 1 then 0 else j) k l)⟩ := by
    simp only [condBias, if_pos hmem, if_pos (Or.inl hnum)]
  refine ⟨_, hsome, ?_⟩
  intro i j k l
  simp only [g4]
  split
  · simp [embFlat, hw]
  · rfl

/-- Structure-level form of the no-op: if the embedding table of a
conditional `DiscriminatorP` is all zeros, forwarding with any single valid
id gives exactly the unconditional forward of the same instance. -/
theorem forwardP_zero_emb (D : DiscriminatorP) (e : Embedding) (id : Nat)
    (x : Tensor2) (hemb : D.emb = some e) (hw : ∀ a b, e.weight a b = 0)
    (hid : id < e.num_embeddings)
    (hdim : ∀ st, pStack D x = some st → e.dim = st.1.ch) :
    D.forward x (some [id]) = D.forward x none := by
  unfold DiscriminatorP.forward
  cases hpad : pStack D x with
  | none => rfl
  | some st =>
    simp only [Option.some_bind, hemb]
    obtain ⟨t, hcb, hzt⟩ := condBias_zero_weight e id st.1 hw hid (hdim st hpad)
    rw [hcb]
    simp only [Option.some_bind]
    rw [add4_right_zero (conv4 D.conv_post st.1) t (conv4_data_guarded _ _) hzt]

/-- Structure-level form of the no-op for `DiscriminatorR`. -/
theorem forwardR_zero_emb (D : DiscriminatorR) (e : Embedding) (id : Nat)
    (x : Tensor2) (hemb : D.emb = some e) (hw : ∀ a b, e.weight a b = 0)
    (hid : id < e.num_embeddings) (hdim : e.dim = (rStack D x).1.ch) :
    D.forward x (some [id]) = D.forward x none := by
  unfold DiscriminatorR.forward
  simp only [hemb]
  obtain ⟨t, hcb, hzt⟩ := condBias_zero_weight e id (rStack D x).1 hw hid hdim
  rw [hcb]
  simp only [Option.some_bind]
  rw [add4_right_zero (conv4 D.conv_post (rStack D x).1) t (conv4_data_guarded _ _) hzt]

/-- C5: For every freshly constructed conditional sub-discriminator (the
constructor zero-initialises the embedding table) and every valid
conditioning id, forward with that id returns exactly what the identically
parameterized unconditional construction returns on the same input: the
conditioning bias term is exactly zero at initialization. -/
theorem C5_zero_init_no_op :
    (∀ (p ks st : Nat) (sl : ℚ) (P : PParams) (n id : Nat) (x : Tensor2),
      id < n →
      (DiscriminatorP.init p ks st sl (some n) P).forward x (some [id])
        = (DiscriminatorP.init p ks st sl none P).forward x none)
    ∧ ∀ (res : Nat × Nat × Nat) (ch : Nat) (sl : ℚ) (P : PParams) (n id : Nat)
        (x : Tensor2), id < n →
      (DiscriminatorR.init res ch (some n) sl P).forward x (some [id])
        = (DiscriminatorR.init res ch none sl P).forward x none := by
  constructor
  · intro p ks st sl P n id x hid
    have h1 : (DiscriminatorP.init p ks st sl (some n) P).forward x (some [id])
        = (DiscriminatorP.init p ks st sl (some n) P).forward x none := by
      refine forwardP_zero_emb _ ⟨n, 1024, fun _ _ => 0⟩ id x rfl (fun _ _ => rfl) hid ?_
      intro stk hst
      rw [pStack] at hst
      cases hpad : padStep (DiscriminatorP.init p ks st sl (some n) P).period x with
      | none => rw [hpad] at hst; simp at hst
      | some xp =>
        rw [hpad] at hst
        simp only [Option.map_some', Option.some_inj] at hst
        rw [← hst]
        rfl
    rw [h1]
    rfl
  · intro res ch sl P n id x hid
    have h1 : (DiscriminatorR.init res ch (some n) sl P).forward x (some [id])
        = (DiscriminatorR.init res ch (some n) sl P).forward x none :=
      forwardR_zero_emb _ ⟨n, ch, fun _ _ => 0⟩ id x rfl (fun _ _ => rfl) hid rfl
    rw [h1]
    rfl

/-- Witness for C5 at concrete conditional/unconditional pairs. -/
theorem C5_zero_init_no_op_witness :
    0 < 2 ∧ condP2.forward ex1 (some [0]) = uncondP.forward ex1 none
    ∧ condR2.forward ex1 (some [0]) = uncondR.forward ex1 none :=
  ⟨by decide, C5_zero_init_no_op.1 2 5 3 (1 / 10) zeroPParams 2 0 ex1 (by decide),
   C5_zero_init_no_op.2 (2, 1, 2) 64 (1 / 10) zeroPParams 2 0 ex1 (by decide)⟩

/-- Counterexample to C6 as stated: a conditional `DiscriminatorP`, batch
size 2, and a conditioning-id batch with one (valid) id per batch element.
`emb.view(1, -1, 1, 1)` flattens the `(2, 1024)` lookup to `(1, 2048, 1, 1)`,
which cannot broadcast against the `(2, 1024, H, W)` activation, so the
forward call fails instead of computing a per-element bias. -/
theorem C6_counterexample : condP2.forward exB2 (some [0, 1]) = none := by rfl

/-- The single-shared-id case of the bias computation: lookup of the one
embedding row, channel-broadcast multiply, channel sum, `(batch, 1, ·, ·)`
output. -/
theorem condBias_single (e : Embedding) (id : Nat) (x : Tensor4)
    (h1 : id < e.num_embeddings) (h2 : e.dim = x.ch) :
    ∃ t, condBias e [id] x = some t ∧ biasSpec e id x t := by
  have hmem : ∀ i ∈ [id], i < e.num_embeddings := by simpa using h1
  have hnum : [id].length * e.dim = x.ch := by simpa using h2
  have hsome : condBias e [id] x = some ⟨x.batch, 1, x.height, x.width,
      g4 x.batch 1 x.height x.width (fun i _ k l =>
        ∑ j ∈ Finset.range (max ([id].length * e.dim) x.ch),
          embFlat e [id] (if [id].length * e.dim = 1 then 0 else j) *
            x.data i (if x.ch = 1 then 0 else j) k l)⟩ := by
    simp only [condBias, if_pos hmem, if_pos (Or.inl hnum)]
  refine ⟨_, hsome, rfl, rfl, rfl, rfl, ?_⟩
  intro i k l hi hk hl
  show g4 x.batch 1 x.height x.width (fun i _ k l =>
      ∑ j ∈ Finset.range (max ([id].length * e.dim) x.ch),
        embFlat e [id] (if [id].length * e.dim = 1 then 0 else j) *
          x.data i (if x.ch = 1 then 0 else j) k l) i 0 k l
    = ∑ j ∈ Finset.range x.ch, e.weight id j * x.data i j k l
  unfold g4
  rw [if_pos ⟨hi, Nat.one_pos, hk, hl⟩]
  simp only [List.length_singleton, one_mul, h2, max_self]
  refine Finset.sum_congr rfl ?_
  intro j hj
  have hjch : j < x.ch := Finset.mem_range.mp hj
  by_cases hch : x.ch = 1
  · have hj0 : j = 0 := by omega
    subst hj0
    simp [embFlat, hch]
  · have hdiv : j / e.dim = 0 := Nat.div_eq_of_lt (by omega)
    have hmod : j % e.dim = j := Nat.mod_eq_of_lt (by omega)
    simp [embFlat, hch, hdiv, hmod]

/-- C6 (amended): the conditioning id is a single id shared by the whole
batch, not one id per batch element.  With a single valid id, the bias is
the embedding row of that shared id broadcast-multiplied channel-wise
against the last activation and summed over the channel dimension, yielding
a `(batch, 1, ·, ·)` tensor applied to every batch element; with one id per
batch element and batch size at least 2, the bias computation (and hence
the forward call) fails on the channel-broadcast mismatch. -/
theorem C6_single_id_bias (e : Embedding) (id : Nat) (x : Tensor4)
    (h1 : id < e.num_embeddings) (h2 : e.dim = x.ch) :
    (∃ t, condBias e [id] x = some t ∧ biasSpec e id x t)
    ∧ ∀ ids : List Nat, 2 ≤ ids.length → 1 < x.ch → condBias e ids x = none := by
  refine ⟨condBias_single e id x h1 h2, ?_⟩
  intro ids hlen hch
  have hm : 2 * x.ch ≤ ids.length * x.ch := Nat.mul_le_mul_right x.ch hlen
  simp only [condBias]
  split
  · have hcond : ¬ (ids.length * e.dim = x.ch ∨ ids.length * e.dim = 1 ∨ x.ch = 1) := by
      rw [h2]
      omega
    rw [if_neg hcond]
  · rfl

/-- Witness for C6 at a tiny embedding table and activation. -/
theorem C6_single_id_bias_witness :
    0 < e0.num_embeddings ∧ e0.dim = x0.ch
    ∧ ((∃ t, condBias e0 [0] x0 = some t ∧ biasSpec e0 0 x0 t)
       ∧ ∀ ids : List Nat, 2 ≤ ids.length → 1 < x0.ch → condBias e0 ids x0 = none) :=
  ⟨by decide, rfl, C6_single_id_bias e0 0 x0 (by decide) rfl⟩

/-- C7 (amended): in a conditioned forward pass, `fmap.append(x)` stores the
very tensor that the subsequent in-place `x += h` mutates, so the last entry
of the returned feature-map list equals the final convolution's output
**with** the conditioning bias term already added, and the returned score
vector is the flattening of that same biased tensor. -/
theorem C7_post_conv_bias_alias (D : DiscriminatorP) (e : Embedding)
    (x : Tensor2) (ids : List Nat) (Dr : DiscriminatorR) (er : Embedding)
    (xr : Tensor2) (idsr : List Nat) (st : Tensor4 × List Tensor4)
    (hb : Tensor4) (str : Tensor4 × List Tensor4) (hbr : Tensor4)
    (hembP : D.emb = some e) (hstP : pStack D x = some st)
    (hcbP : condBias e ids st.1 = some hb) (hembR : Dr.emb = some er)
    (hstR : rStack Dr xr = str) (hcbR : condBias er idsr str.1 = some hbr) :
    D.forward x (some ids)
      = some (flatten14 (add4 (conv4 D.conv_post st.1) hb),
              st.2 ++ [add4 (conv4 D.conv_post st.1) hb])
    ∧ Dr.forward xr (some idsr)
      = some (flatten14 (add4 (conv4 Dr.conv_post str.1) hbr),
              str.2 ++ [add4 (conv4 Dr.conv_post str.1) hbr]) := by
  constructor
  · unfold DiscriminatorP.forward
    rw [hstP]
    simp only [Option.some_bind, hembP]
    rw [hcbP]
    rfl
  · unfold DiscriminatorR.forward
    simp only [hembR, hstR]
    rw [hcbR]
    rfl

/-- Witness for C7 at concrete conditional instances and id 0. -/
theorem C7_post_conv_bias_alias_witness :
    condP2.forward ex1 (some [0])
      = some (flatten14 (add4 (conv4 condP2.conv_post stP2.1) hbP2),
              stP2.2 ++ [add4 (conv4 condP2.conv_post stP2.1) hbP2])
    ∧ condR2.forward ex1 (some [0])
      = some (flatten14 (add4 (conv4 condR2.conv_post stR2.1) hbR2),
              stR2.2 ++ [add4 (conv4 condR2.conv_post stR2.1) hbR2]) :=
  C7_post_conv_bias_alias condP2 eP2 ex1 [0] condR2 eR2 ex1 [0] stP2 hbP2 stR2 hbR2
    rfl rfl (Option.some_get _).symm rfl rfl (Option.some_get _).symm

/-- A convolution whose effective weight is all zeros and whose bias is
constant outputs a constant tensor, whatever its input. -/
theorem conv4_const_of_zero_weight (c : Conv2d) (x : Tensor4) (v : ℚ)
    (hw : ∀ o j u a, c.weight o j u a = 0) (hb : ∀ o, c.bias o = v) :
    conv4 c x = constT x.batch c.outCh ((x.height + 2 * c.ph - c.kh) / c.sh + 1)
      ((x.width + 2 * c.pw - c.kw) / c.sw + 1) v := by
  refine Tensor4.ext' rfl rfl rfl rfl ?_
  simp only [conv4, constT]
  funext i o k l
  simp [hw, hb]

/-- Leaky-ReLU fixes constant tensors with nonnegative value. -/
theorem lrelu4_constT (s : ℚ) (b c h w : Nat) (v : ℚ) (hv : 0 ≤ v) :
    lrelu4 s (constT b c h w v) = constT b c h w v := by
  refine Tensor4.ext' rfl rfl rfl rfl ?_
  funext i j k l
  show lreluQ s (g4 b c h w (fun _ _ _ _ => v) i j k l)
    = g4 b c h w (fun _ _ _ _ => v) i j k l
  unfold g4
  split
  · simp [lreluQ, hv]
  · simp [lreluQ]

/-- On `ex1`, the last activation of `trainedP` is the constant-one tensor
of shape `(1, 1024, 1, 2)`. -/
theorem stT_fst : stT.1 = constT 1 1024 1 2 1 := by
  have h1 : conv4 (mkConv 1 32 5 1 3 1 2 0 onesBiasCP) (view4 ex1 2)
      = constT 1 32 1 2 1 := by
    rw [conv4_const_of_zero_weight (mkConv 1 32 5 1 3 1 2 0 onesBiasCP) (view4 ex1 2) 1
      (fun _ _ _ _ => rfl) (fun _ => rfl)]
    rfl
  have l1 : lrelu4 (1 / 10) (constT 1 32 1 2 1) = constT 1 32 1 2 1 :=
    lrelu4_constT (1 / 10) 1 32 1 2 1 (by norm_num)
  have h2 : conv4 (mkConv 32 128 5 1 3 1 2 0 onesBiasCP) (constT 1 32 1 2 1)
      = constT 1 128 1 2 1 := by
    rw [conv4_const_of_zero_weight (mkConv 32 128 5 1 3 1 2 0 onesBiasCP)
      (constT 1 32 1 2 1) 1 (fun _ _ _ _ => rfl) (fun _ => rfl)]
    rfl
  have l2 : lrelu4 (1 / 10) (constT 1 128 1 2 1) = constT 1 128 1 2 1 :=
    lrelu4_constT (1 / 10) 1 128 1 2 1 (by norm_num)
  have h3 : conv4 (mkConv 128 512 5 1 3 1 2 0 onesBiasCP) (constT 1 128 1 2 1)
      = constT 1 512 1 2 1 := by
    rw [conv4_const_of_zero_weight (mkConv 128 512 5 1 3 1 2 0 onesBiasCP)
      (constT 1 128 1 2 1) 1 (fun _ _ _ _ => rfl) (fun _ => rfl)]
    rfl
  have l3 : lrelu4 (1 / 10) (constT 1 512 1 2 1) = constT 1 512 1 2 1 :=
    lrelu4_constT (1 / 10) 1 512 1 2 1 (by norm_num)
  have h4 : conv4 (mkConv 512 1024 5 1 3 1 2 0 onesBiasCP) (constT 1 512 1 2 1)
      = constT 1 1024 1 2 1 := by
    rw [conv4_const_of_zero_weight (mkConv 512 1024 5 1 3 1 2 0 onesBiasCP)
      (constT 1 512 1 2 1) 1 (fun _ _ _ _ => rfl) (fun _ => rfl)]
    rfl
  have l4 : lrelu4 (1 / 10) (constT 1 1024 1 2 1) = constT 1 1024 1 2 1 :=
    lrelu4_constT (1 / 10) 1 1024 1 2 1 (by norm_num)
  have h5 : conv4 (mkConv 1024 1024 5 1 1 1 2 0 onesBiasCP) (constT 1 1024 1 2 1)
      = constT 1 1024 1 2 1 := by
    rw [conv4_const_of_zero_weight (mkConv 1024 1024 5 1 1 1 2 0 onesBiasCP)
      (constT 1 1024 1 2 1) 1 (fun _ _ _ _ => rfl) (fun _ => rfl)]
    rfl
  show (convLoopP (1 / 10) trainedP.convs (view4 ex1 2) 0).1 = constT 1 1024 1 2 1
  rw [show trainedP.convs = [mkConv 1 32 5 1 3 1 2 0 onesBiasCP,
      mkConv 32 128 5 1 3 1 2 0 onesBiasCP, mkConv 128 512 5 1 3 1 2 0 onesBiasCP,
      mkConv 512 1024 5 1 3 1 2 0 onesBiasCP,
      mkConv 1024 1024 5 1 1 1 2 0 onesBiasCP] from rfl]
  simp only [convLoopP]
  rw [h1, l1, h2, l2, h3, l3, h4, l4, h5, l4]

/-- Counterexample to C7 as stated: on `trainedP` (conditioning enabled,
nonzero embedding) with input `ex1` and id 0, the last feature-map entry has
value 1024 at index `(0, 0, 0, 0)` while the final convolution's output
before the bias addition has value 0 there — the stored feature map is the
biased tensor, not the pre-bias one. -/
theorem C7_counterexample :
    ((trainedP.forward ex1 (some [0])).map
        (fun r => r.2.getLast?.map (fun t => t.data 0 0 0 0)))
      = some (some 1024)
    ∧ (pStack trainedP ex1).map
        (fun s => (conv4 trainedP.conv_post s.1).data 0 0 0 0) = some 0 := by
  obtain ⟨t, ht, hspec⟩ :=
    condBias_single e1 0 (constT 1 1024 1 2 1) (by decide) rfl
  have hterm : ∀ j ∈ Finset.range 1024,
      e1.weight 0 j * (constT 1 1024 1 2 (1 : ℚ)).data 0 j 0 0 = 1 := by
    intro j hj
    have hjlt : j < 1024 := Finset.mem_range.mp hj
    show (1 : ℚ) * g4 1 1024 1 2 (fun _ _ _ _ => (1 : ℚ)) 0 j 0 0 = 1
    unfold g4
    rw [if_pos ⟨Nat.one_pos, hjlt, Nat.one_pos, by norm_num⟩]
    norm_num
  have htval : t.data 0 0 0 0 = 1024 := by
    rw [hspec.2.2.2.2 0 0 0 Nat.one_pos Nat.one_pos (by decide)]
    rw [show (constT 1 1024 1 2 (1 : ℚ)).ch = 1024 from rfl]
    rw [Finset.sum_congr rfl hterm, Finset.sum_const, Finset.card_range]
    norm_num
  have hpost : conv4 trainedP.conv_post (constT 1 1024 1 2 1) = constT 1 1 1 2 0 := by
    rw [show trainedP.conv_post = mkConv 1024 1 3 1 1 1 1 0 zeroCP from rfl]
    rw [conv4_const_of_zero_weight (mkConv 1024 1 3 1 1 1 1 0 zeroCP)
      (constT 1 1024 1 2 1) 0 (fun _ _ _ _ => rfl) (fun _ => rfl)]
    rfl
  constructor
  · have hfwd : trainedP.forward ex1 (some [0])
        = (condBias e1 [0] stT.1).bind (fun hb =>
            some (flatten14 (add4 (conv4 trainedP.conv_post stT.1) hb),
                  stT.2 ++ [add4 (conv4 trainedP.conv_post stT.1) hb])) := rfl
    rw [hfwd, stT_fst, ht, hpost]
    simp only [Option.some_bind, Option.map_some']
    rw [List.getLast?_concat]
    simp only [Option.map_some', Option.some_inj]
    show g4 1 1 1 2 (fun i j k l =>
        (constT 1 1 1 2 (0 : ℚ)).data i j k l + t.data i j k l) 0 0 0 0
      = 1024
    unfold g4
    rw [if_pos ⟨Nat.one_pos, Nat.one_pos, Nat.one_pos, by norm_num⟩]
    show (constT 1 1 1 2 (0 : ℚ)).data 0 0 0 0 + t.data 0 0 0 0 = 1024
    rw [htval]
    show g4 1 1 1 2 (fun _ _ _ _ => (0 : ℚ)) 0 0 0 0 + 1024 = 1024
    unfold g4
    rw [if_pos ⟨Nat.one_pos, Nat.one_pos, Nat.one_pos, by norm_num⟩]
    norm_num
  · rw [show pStack trainedP ex1 = some stT from rfl]
    simp only [Option.map_some', Option.some_inj]
    rw [stT_fst, hpost]
    show g4 1 1 1 2 (fun _ _ _ _ => (0 : ℚ)) 0 0 0 0 = 0
    unfold g4
    rw [if_pos ⟨Nat.one_pos, Nat.one_pos, Nat.one_pos, by norm_num⟩]
